import Mathlib

/-!
Verification of the Serial Channel Protocol Engine of the Web-Serial speed-test
repository (src/speed-test/serial-test.js and the multi-channel variant in
src/unnamed/part_000).  The JavaScript is shallowly embedded: strings are
`List Char`, JS numbers that the claims exercise are `Int` (the average latency,
a JS float division, is `ℚ`), fallible awaited calls are `Except` values chosen
by the environment, and the mutable channel object is explicit state passing.
-/

/-! Character-level model of JavaScript `String.prototype.trim` (ASCII whitespace). -/

def isWS (c : Char) : Bool :=
  c = ' ' || c = '\t' || c = '\n' || c = '\r' || c = '\x0b' || c = '\x0c'

def trimList (l : List Char) : List Char :=
  ((l.dropWhile isWS).reverse.dropWhile isWS).reverse

/-- Model of `buffer.split(/\r?\n/)` (serial-test.js line 108, part_000 line 449):
the separators are `"\n"` and `"\r\n"`, scanned left to right, the optional
`\r` tried first at each position; the list of segments between separators is
returned, always nonempty. -/
def splitRN : List Char → List (List Char)
  | [] => [[]]
  | '\n' :: rest => [] :: splitRN rest
  | '\r' :: '\n' :: rest => [] :: splitRN rest
  | c :: rest =>
    match splitRN rest with
    | [] => [[c]]
    | s :: ss => (c :: s) :: ss

/-- One `transform(chunk, controller)` call of `createLineTransformStream`
(serial-test.js lines 106-119, part_000 lines 447-460): append the chunk to the
buffer, split on `\r?\n`, keep the last segment (`lines.pop() || ''`) as the new
buffer, and enqueue every preceding segment whose trim is nonempty (the segment
itself is enqueued, untrimmed).  Returns (enqueued lines, new buffer). -/
def transformChunk (buffer chunk : List Char) : List (List Char) × List Char :=
  let lines := splitRN (buffer ++ chunk)
  (lines.dropLast.filter (fun l => !(trimList l).isEmpty), lines.getLastD [])

/-- Feeding a sequence of chunks through the transform stream, starting from the
given buffer; returns all enqueued lines in order and the final buffer. -/
def feedChunks (buffer : List Char) : List (List Char) → List (List Char) × List Char
  | [] => ([], buffer)
  | c :: cs =>
    let p := transformChunk buffer c
    let q := feedChunks p.2 cs
    (p.1 ++ q.1, q.2)

/-- The `flush(controller)` callback (serial-test.js lines 121-126, part_000
lines 462-467): enqueue the remaining buffer, untrimmed, if its trim is
nonempty. -/
def flushBuffer (buffer : List Char) : List (List Char) :=
  if (trimList buffer).isEmpty then [] else [buffer]

/-- Full run of the line transform stream: transform every chunk starting from
the empty buffer, then flush when the stream closes. -/
def runFramer (chunks : List (List Char)) : List (List Char) :=
  let p := feedChunks [] chunks
  p.1 ++ flushBuffer p.2

/-- A line separator: `"\r\n"` when the flag is true, `"\n"` otherwise. -/
def sepChars (b : Bool) : List Char := if b then ['\r', '\n'] else ['\n']

/-- Text consisting of the given lines joined by `\n` or `\r\n`, the separator
at each join chosen by the corresponding entry of `seps` (default `\n`).  No
trailing separator is appended after the final line. -/
def joinLines : List (List Char) → List Bool → List Char
  | [], _ => []
  | [l], _ => l
  | l :: ls, seps => l ++ sepChars (seps.headD false) ++ joinLines ls seps.tail

/-! Weight Filter (serial-test.js lines 514-521, part_000 lines 683-690). -/

/-- `this.windowSize` (serial-test.js line 42, part_000 line 419). -/
def windowSize : Nat := 5

/-- The window after `push(newWeight)` followed by the conditional `shift()`
(serial-test.js lines 515-518): append the new value and drop the oldest when
the length exceeds `windowSize`. -/
def updatedWindow (weightWindow : List Int) (newWeight : Int) : List Int :=
  let w1 := weightWindow ++ [newWeight]
  if windowSize < w1.length then w1.tail else w1

/-- `filterWithMedian` (serial-test.js lines 514-521): update the window, sort a
copy ascending (`[...window].sort((a, b) => a - b)`, embedded as an ascending
sort), and return the element at index `floor(length / 2)` together with the
updated window state. -/
def filterWithMedian (weightWindow : List Int) (newWeight : Int) : List Int × Int :=
  let w2 := updatedWindow weightWindow newWeight
  let sorted := List.insertionSort (· ≤ ·) w2
  (w2, sorted.getD (sorted.length / 2) 0)

/-- Push a sequence of raw values through the filter from the given starting
window; returns the final window and the outputs in order. -/
def pushSequence (weightWindow : List Int) : List Int → List Int × List Int
  | [] => (weightWindow, [])
  | x :: xs =>
    let p := filterWithMedian weightWindow x
    let q := pushSequence p.1 xs
    (q.1, p.2 :: q.2)

/-- Modelled from the spec: the lower median of a sorted window, the element at
index `floor((length - 1) / 2)`.  Stated from the spec's words for comparison
with what the code returns. -/
def lowerMedian (s : List Int) : Int := s.getD ((s.length - 1) / 2) 0

/-! Metrics (serial-test.js lines 473-551, part_000 lines 692-759). -/

/-- `updateReadingsPerSecond` (serial-test.js lines 523-536, part_000 lines
728-738): keep only the timestamps with `now - timestamp < 1000` and report the
length of the kept list.  Returns (new retained list, readingsPerSecond). -/
def updateReadingsPerSecond (readingsInLastSecond : List Int) (now : Int) :
    List Int × Nat :=
  let kept := readingsInLastSecond.filter (fun t => now - t < 1000)
  (kept, kept.length)

/-- Modelled from the spec: the count of recorded timestamps lying in the closed
interval `[now - 1000, now]`.  Stated from the spec's words for comparison with
what the code computes. -/
def closedWindowCount (timestamps : List Int) (now : Int) : Nat :=
  (timestamps.filter (fun t => decide (now - 1000 ≤ t ∧ t ≤ now))).length

/-- One stored reading (serial-test.js lines 480-485). -/
structure Reading where
  weight : Int
  rawWeight : Int
  latency : Int
  timestamp : Int
deriving DecidableEq

/-- The per-channel performance state mutated by `processReading`. -/
structure PerfState where
  weightWindow : List Int
  readings : List Reading
  latencies : List Int
  readingsInLastSecond : List Int
  readingsPerSecond : Nat
deriving DecidableEq

/-- `processReading(weight, latency)` at time `now` (serial-test.js lines
473-512): filter the weight through the median window, append the reading, the
latency and the timestamp, drop the oldest reading/latency beyond 1000 entries,
then recompute the readings-per-second window.  The display and logging calls
have no effect on this state. -/
def processReading (st : PerfState) (weight latency now : Int) : PerfState :=
  let fw := filterWithMedian st.weightWindow weight
  let readings1 := st.readings ++ [⟨fw.2, weight, latency, now⟩]
  let latencies1 := st.latencies ++ [latency]
  let inLast1 := st.readingsInLastSecond ++ [now]
  let readings2 := if 1000 < readings1.length then readings1.tail else readings1
  let latencies2 := if 1000 < latencies1.length then latencies1.tail else latencies1
  let upd := updateReadingsPerSecond inLast1 now
  { weightWindow := fw.1
    readings := readings2
    latencies := latencies2
    readingsInLastSecond := upd.1
    readingsPerSecond := upd.2 }

/-- `Math.min(...xs)` over a spread array: the fold of `min` over the elements.
Under `updateMetrics`' guard the list is never empty; the `[]` case (JS would
yield `Infinity`) is totalized to `0`. -/
def minSpread : List Int → Int
  | [] => 0
  | x :: xs => xs.foldl min x

/-- `Math.max(...xs)` over a spread array, totalized like `minSpread`. -/
def maxSpread : List Int → Int
  | [] => 0
  | x :: xs => xs.foldl max x

/-- The metric values published by `updateMetrics` (part_000 lines 740-759;
serial-test.js lines 538-551 computes the same values into the DOM). -/
structure MetricVals where
  avgLatency : ℚ
  minLatency : Int
  maxLatency : Int
  totalReadings : Nat
deriving DecidableEq

/-- `updateMetrics` (part_000 lines 740-759): return early when no readings are
stored; otherwise average (a JS float division, embedded in `ℚ`), minimum and
maximum of the stored latencies, and the reading count. -/
def updateMetrics (st : PerfState) : Option MetricVals :=
  if st.readings.length = 0 then none
  else some
    { avgLatency := (st.latencies.sum : ℚ) / (st.latencies.length : ℚ)
      minLatency := minSpread st.latencies
      maxLatency := maxSpread st.latencies
      totalReadings := st.readings.length }

/-- The body of the continuous-read (`wc`) loop for one numeric line
(serial-test.js lines 390-407, `readWeightOnce`): the latency recorded for a
line-framed reading is the constant `0` (line 403), and the parsed weight is
processed at the current time. -/
def continuousReadStep (st : PerfState) (weight now : Int) : PerfState :=
  processReading st weight 0 now

/-- Iterating the continuous-read loop over a sequence of parsed numeric lines,
each paired with its arrival time. -/
def runContinuousRead (st : PerfState) (events : List (Int × Int)) : PerfState :=
  events.foldl (fun s e => continuousReadStep s e.1 e.2) st

/-! Device-info handshake (part_000 lines 550-571, `SerialChannel.getDeviceInfo`). -/

/-- The channel fields touched by the device-info handshake. -/
structure DeviceInfoState where
  isConnected : Bool
  deviceId : Option String
  deviceCapacity : Option String
  deviceUnits : Option String
deriving DecidableEq

/-- `getDeviceInfo` (part_000 lines 550-571): issue `id`, `slc`, `units` in
order, storing each response as it arrives; the surrounding try/catch catches
the first command that throws, logs, and sets `this.deviceId = 'Error'`.
Assignments made before the throw persist; commands after the throw never run;
`isConnected` is never touched.  Each argument is the outcome the environment
gives the corresponding `sendCommand` await. -/
def getDeviceInfo (st : DeviceInfoState) (idR slcR unitsR : Except Unit String) :
    DeviceInfoState :=
  match idR with
  | .error _ => { st with deviceId := some "Error" }
  | .ok idV =>
    let st1 := { st with deviceId := some idV }
    match slcR with
    | .error _ => { st1 with deviceId := some "Error" }
    | .ok capV =>
      let st2 := { st1 with deviceCapacity := some capV }
      match unitsR with
      | .error _ => { st2 with deviceId := some "Error" }
      | .ok uV => { st2 with deviceUnits := some uV }

/-! Disconnect (serial-test.js lines 195-233, part_000 lines 512-548). -/

/-- Channel connection state touched by `disconnect`: the handle fields record
whether `lineReader`, `writer` and `port` are non-null. -/
structure ConnState where
  isReading : Bool
  isConnected : Bool
  hasLineReader : Bool
  hasWriter : Bool
  hasPort : Bool
  deviceId : Option String
  deviceCapacity : Option String
  deviceUnits : Option String
deriving DecidableEq

/-- The line-reader release step of `disconnect` (serial-test.js lines 201-205):
when a line reader is held, `await cancel()` then `await releaseLock()` then
null the handle.  An exception at either await leaves the state as it stood and
propagates (`Except.error` carries the state at the throw point). -/
def releaseLineReaderStep (st : ConnState) (cancelR relR : Except Unit Unit) :
    Except ConnState ConnState :=
  if st.hasLineReader then
    match cancelR with
    | .error _ => .error st
    | .ok _ =>
      match relR with
      | .error _ => .error st
      | .ok _ => .ok { st with hasLineReader := false }
  else .ok st

/-- The writer release step of `disconnect` (serial-test.js lines 207-210). -/
def releaseWriterStep (st : ConnState) (relR : Except Unit Unit) :
    Except ConnState ConnState :=
  if st.hasWriter then
    match relR with
    | .error _ => .error st
    | .ok _ => .ok { st with hasWriter := false }
  else .ok st

/-- The port close step of `disconnect` (serial-test.js lines 212-215). -/
def closePortStep (st : ConnState) (closeR : Except Unit Unit) :
    Except ConnState ConnState :=
  if st.hasPort then
    match closeR with
    | .error _ => .error st
    | .ok _ => .ok { st with hasPort := false }
  else .ok st

/-- The tail of `disconnect`'s try block (serial-test.js lines 217-226): mark
disconnected and clear the device-identity fields. -/
def clearAfterClose (st : ConnState) : ConnState :=
  { st with isConnected := false, deviceId := none, deviceCapacity := none,
            deviceUnits := none }

/-- `disconnect` (serial-test.js lines 195-233): one try block runs
`stopReading` (when reading; it never throws — its own sendCommand failure is
caught internally, part_000 lines 622-640), the reader release, the writer
release, the port close and the state clearing in sequence; the single catch
clause only logs, so the first exception ends the whole sequence with all
mutations made so far kept and everything after the throw skipped. -/
def disconnect (st0 : ConnState) (cancelR relR wRelR closeR : Except Unit Unit) :
    ConnState :=
  let st1 := if st0.isReading then { st0 with isReading := false } else st0
  let body : Except ConnState ConnState := do
    let a ← releaseLineReaderStep st1 cancelR relR
    let b ← releaseWriterStep a wRelR
    let c ← closePortStep b closeR
    pure (clearAfterClose c)
  match body with
  | .ok s => s
  | .error s => s

/-! Command/response protocol and stopReading (serial-test.js lines 303-380). -/

/-- `this.currentMethod` values (serial-test.js lines 53-60). -/
inductive ReadMethod
  | onread
  | interval
  | continuous
deriving DecidableEq

/-- The channel state seen by `sendCommand`/`stopReading`: `pending` is the
sequence of lines the line stream will deliver next (exhaustion means the
stream reports done), `written` collects the text written to the transport. -/
structure CommandState where
  isReading : Bool
  currentMethod : ReadMethod
  hasWriter : Bool
  hasLineReader : Bool
  pending : List String
  written : List String
deriving DecidableEq

/-- `readResponse` (serial-test.js lines 330-347): throw when the line reader is
gone; otherwise read one complete line from the line stream — `none` models the
done/closed stream (JS returns null), else the line is consumed and trimmed. -/
def readResponse (st : CommandState) : Except Unit (Option String × CommandState) :=
  if st.hasLineReader = false then .error ()
  else
    match st.pending with
    | [] => .ok (none, st)
    | l :: rest => .ok (some l.trim, { st with pending := rest })

/-- `sendCommand` (serial-test.js lines 303-328): throw when the writer is gone;
when `isReading && currentMethod === 'onread'` write `command + '\r'` and
return `'sent'` without reading; otherwise write `command + '\r'` and read one
response line via `readResponse`. -/
def sendCommand (st : CommandState) (command : String) :
    Except Unit (Option String × CommandState) :=
  if st.hasWriter = false then .error ()
  else if st.isReading = true ∧ st.currentMethod = ReadMethod.onread then
    .ok (some "sent", { st with written := st.written ++ [command ++ "\r"] })
  else
    readResponse { st with written := st.written ++ [command ++ "\r"] }

/-- `stopReading` (serial-test.js lines 360-380): clear `isReading` first, then
(when a writer is held and the method is `onread`) best-effort send the empty
stop command through `sendCommand`, catching and logging any error. -/
def stopReading (st : CommandState) : CommandState :=
  let st1 := { st with isReading := false }
  if st1.hasWriter = true ∧ st1.currentMethod = ReadMethod.onread then
    match sendCommand st1 "" with
    | .ok p => p.2
    | .error _ => st1
  else st1

/-! Supporting lemmas about the line splitter. -/

theorem splitRN_ne_nil (l : List Char) : splitRN l ≠ [] := by
  induction l using splitRN.induct with
  | _ => simp_all [splitRN]

theorem splitRN_nl (rest : List Char) : splitRN ('\n' :: rest) = [] :: splitRN rest := by
  simp [splitRN]

theorem splitRN_crnl (rest : List Char) :
    splitRN ('\r' :: '\n' :: rest) = [] :: splitRN rest := by
  simp [splitRN]

theorem splitRN_cons_default (c : Char) (rest : List Char) (hc : ¬ c = '\n')
    (h2 : ∀ r', c = '\r' → rest = '\n' :: r' → False) :
    splitRN (c :: rest) = match splitRN rest with
      | [] => [[c]]
      | s :: ss => (c :: s) :: ss := by
  rw [splitRN.eq_def]
  split <;> simp_all

theorem splitRN_eq_single {l s : List Char} (h : splitRN l = [s]) : l = s := by
  induction l using splitRN.induct generalizing s with
  | case1 => simp [splitRN] at h; exact h.symm
  | case2 rest ih =>
    simp [splitRN] at h
    exact absurd h.2 (splitRN_ne_nil rest)
  | case3 rest ih =>
    simp [splitRN] at h
    exact absurd h.2 (splitRN_ne_nil rest)
  | case4 c rest hc h2 hnil ih => exact absurd hnil (splitRN_ne_nil rest)
  | case5 c rest hc h2 s' ss hs ih =>
    rw [splitRN_cons_default c rest hc h2, hs] at h
    simp at h
    obtain ⟨h1, rfl⟩ := h
    subst h1
    have hr : rest = s' := ih (by rw [hs])
    simp [hr]

theorem splitRN_append (a b : List Char) :
    splitRN (a ++ b) = (splitRN a).dropLast ++ splitRN ((splitRN a).getLastD [] ++ b) := by
  induction a using splitRN.induct with
  | case1 => simp [splitRN]
  | case2 rest ih =>
    obtain ⟨s, ss, hs⟩ : ∃ s ss, splitRN rest = s :: ss := by
      cases h : splitRN rest with
      | nil => exact absurd h (splitRN_ne_nil rest)
      | cons s ss => exact ⟨s, ss, rfl⟩
    rw [List.cons_append, splitRN_nl, splitRN_nl, ih, hs]
    simp [List.getLastD_cons]
  | case3 rest ih =>
    obtain ⟨s, ss, hs⟩ : ∃ s ss, splitRN rest = s :: ss := by
      cases h : splitRN rest with
      | nil => exact absurd h (splitRN_ne_nil rest)
      | cons s ss => exact ⟨s, ss, rfl⟩
    rw [List.cons_append, List.cons_append, splitRN_crnl, splitRN_crnl, ih, hs]
    simp [List.getLastD_cons]
  | case4 c rest hc h2 hnil ih => exact absurd hnil (splitRN_ne_nil rest)
  | case5 c rest hc h2 s ss hs ih =>
    cases ss with
    | nil =>
      have hr : rest = s := splitRN_eq_single hs
      subst hr
      rw [splitRN_cons_default c rest hc h2, hs]
      simp
    | cons t ts =>
      have hrest : rest ≠ [] := by
        intro h
        rw [h] at hs
        simp [splitRN] at hs
      obtain ⟨r0, rest', rfl⟩ : ∃ r0 rest', rest = r0 :: rest' := by
        cases rest with
        | nil => exact absurd rfl hrest
        | cons r0 rest' => exact ⟨r0, rest', rfl⟩
      have h2' : ∀ r', c = '\r' → (r0 :: rest') ++ b = '\n' :: r' → False := by
        intro r' hcr habs
        simp only [List.cons_append, List.cons.injEq] at habs
        exact h2 rest' hcr (by rw [habs.1])
      rw [List.cons_append, splitRN_cons_default c _ hc h2', ih, hs,
        splitRN_cons_default c _ hc h2, hs]
      simp [List.getLastD_cons]

theorem splitRN_no_nl {l : List Char} (h : '\n' ∉ l) : splitRN l = [l] := by
  induction l using splitRN.induct with
  | case1 => simp [splitRN]
  | case2 rest ih => simp at h
  | case3 rest ih => simp at h
  | case4 c rest hc h2 hnil ih => exact absurd hnil (splitRN_ne_nil rest)
  | case5 c rest hc h2 s ss hs ih =>
    have hr : '\n' ∉ rest := fun hm => h (List.mem_cons_of_mem c hm)
    rw [splitRN_cons_default c rest hc h2, ih hr]

theorem nl_not_mem_lastSeg (l : List Char) : '\n' ∉ (splitRN l).getLastD [] := by
  induction l using splitRN.induct with
  | case1 => simp [splitRN]
  | case2 rest ih => rw [splitRN_nl, List.getLastD_cons]; exact ih
  | case3 rest ih => rw [splitRN_crnl, List.getLastD_cons]; exact ih
  | case4 c rest hc h2 hnil ih => exact absurd hnil (splitRN_ne_nil rest)
  | case5 c rest hc h2 s ss hs ih =>
    rw [splitRN_cons_default c rest hc h2, hs]
    rw [hs, List.getLastD_cons] at ih
    cases ss with
    | nil =>
      simp only [List.getLastD_cons] at ih ⊢
      simp only [List.getLastD_nil] at ih ⊢
      intro hm
      rcases List.mem_cons.1 hm with h1 | h1
      · exact hc h1.symm
      · exact ih h1
    | cons t ts =>
      simp only [List.getLastD_cons] at ih ⊢
      exact ih

theorem getLastD_append_right {A : Type} (l1 : List A) {l2 : List A} (h : l2 ≠ [])
    (d : A) : (l1 ++ l2).getLastD d = l2.getLastD d := by
  cases l2 with
  | nil => exact absurd rfl h
  | cons x xs =>
    rw [List.getLastD_eq_getLast?, List.getLast?_append, List.getLastD_eq_getLast?]
    cases hx : (x :: xs).getLast? with
    | none => simp at hx
    | some y => simp

theorem transformChunk_append (buf a b : List Char) :
    transformChunk buf (a ++ b) =
      ((transformChunk buf a).1 ++ (transformChunk (transformChunk buf a).2 b).1,
       (transformChunk (transformChunk buf a).2 b).2) := by
  unfold transformChunk
  simp only
  rw [← List.append_assoc, splitRN_append (buf ++ a) b]
  have hne : (splitRN ((splitRN (buf ++ a)).getLastD [] ++ b)).isEmpty = false := by
    cases h : splitRN ((splitRN (buf ++ a)).getLastD [] ++ b) with
    | nil => exact absurd h (splitRN_ne_nil _)
    | cons x xs => rfl
  simp only [Prod.mk.injEq]
  constructor
  · rw [List.dropLast_append, hne]
    simp [List.filter_append]
  · exact getLastD_append_right _ (splitRN_ne_nil _) _

theorem feedChunks_eq_flatten (buffer : List Char) (hb : '\n' ∉ buffer)
    (chunks : List (List Char)) :
    feedChunks buffer chunks = transformChunk buffer chunks.flatten := by
  induction chunks generalizing buffer with
  | nil =>
    simp only [feedChunks, List.flatten_nil, transformChunk, List.append_nil,
      splitRN_no_nl hb]
    simp
  | cons c cs ih =>
    simp only [feedChunks, List.flatten_cons]
    rw [transformChunk_append buffer c cs.flatten]
    have h2 : '\n' ∉ (transformChunk buffer c).2 := by
      unfold transformChunk
      exact nl_not_mem_lastSeg _
    rw [ih _ h2]

theorem splitRN_line_append {l : List Char} (hn : '\n' ∉ l) (hr : '\r' ∉ l)
    (b : Bool) (t : List Char) : splitRN (l ++ sepChars b ++ t) = l :: splitRN t := by
  induction l with
  | nil =>
    cases b <;> simp only [sepChars, List.nil_append, if_true, if_false] <;>
      [exact splitRN_nl t; exact splitRN_crnl t]
  | cons c l' ih =>
    have hc : ¬ c = '\n' := fun h => hn (h ▸ List.mem_cons_self c l')
    have hcr : ¬ c = '\r' := fun h => hr (h ▸ List.mem_cons_self c l')
    have hn' : '\n' ∉ l' := fun h => hn (List.mem_cons_of_mem c h)
    have hr' : '\r' ∉ l' := fun h => hr (List.mem_cons_of_mem c h)
    rw [List.cons_append, List.cons_append,
      splitRN_cons_default c _ hc (fun r' hcr' _ => absurd hcr' hcr), ih hn' hr']

theorem splitRN_joinLines : ∀ (lines : List (List Char)) (seps : List Bool),
    lines ≠ [] → (∀ l ∈ lines, '\n' ∉ l ∧ '\r' ∉ l) →
    splitRN (joinLines lines seps) = lines
  | [], _, h, _ => absurd rfl h
  | [l], seps, _, hl => by
    simp only [joinLines]
    exact splitRN_no_nl (hl l (by simp)).1
  | l :: l2 :: ls, seps, _, hl => by
    simp only [joinLines]
    rw [splitRN_line_append (hl l (by simp)).1 (hl l (by simp)).2]
    rw [splitRN_joinLines (l2 :: ls) seps.tail (by simp)
      (fun x hx => hl x (List.mem_cons_of_mem l hx))]

/-! Claim theorems. -/

/-- C1: for every text equal to `L` non-blank lines joined by `\n` or `\r\n`
(a line holds neither line-terminator character) and for every way of cutting
that text into a sequence of fragments, feeding the fragments through the Line
Framer emits exactly those `L` lines, in order, regardless of where the
fragment boundaries fall. -/
theorem claim1_framer_fragmentation_invariance
    (lines : List (List Char)) (seps : List Bool) (chunks : List (List Char))
    (hlines : ∀ l ∈ lines, '\n' ∉ l ∧ '\r' ∉ l ∧ (trimList l).isEmpty = false)
    (hjoin : chunks.flatten = joinLines lines seps) :
    runFramer chunks = lines := by
  unfold runFramer
  rw [feedChunks_eq_flatten [] (by simp) chunks, hjoin]
  cases lines with
  | nil =>
    simp only [joinLines]
    simp [transformChunk, splitRN, flushBuffer, trimList]
  | cons l0 ls =>
    have hsplit : splitRN ([] ++ joinLines (l0 :: ls) seps) = l0 :: ls := by
      rw [List.nil_append]
      exact splitRN_joinLines (l0 :: ls) seps (by simp)
        (fun x hx => ⟨(hlines x hx).1, (hlines x hx).2.1⟩)
    unfold transformChunk
    simp only [hsplit]
    rcases List.eq_nil_or_concat (l0 :: ls) with h | ⟨L, b, hLb⟩
    · simp at h
    · rw [List.concat_eq_append] at hLb
      rw [hLb, List.dropLast_concat, getLastD_append_right L (by simp) []]
      have hb : (trimList b).isEmpty = false :=
        (hlines b (by rw [hLb]; exact List.mem_append_right L (by simp))).2.2
      have hfil : List.filter (fun l => !(trimList l).isEmpty) L = L := by
        rw [List.filter_eq_self]
        intro x hx
        have hxl : x ∈ l0 :: ls := by rw [hLb]; exact List.mem_append_left [b] hx
        simp [(hlines x hxl).2.2]
      rw [hfil]
      have hfl : flushBuffer ([b].getLastD []) = [b] := by
        simp [flushBuffer, hb]
      rw [hfl]

/-- Witness for C1: the text `"ab\r\ncd"` cut into the fragments `"a"`,
`"b\r"`, `"\ncd"` yields exactly the two lines `"ab"` and `"cd"`. -/
theorem claim1_witness :
    runFramer [['a'], ['b', '\r'], ['\n', 'c', 'd']] = [['a', 'b'], ['c', 'd']] :=
  claim1_framer_fragmentation_invariance [['a', 'b'], ['c', 'd']] [true]
    [['a'], ['b', '\r'], ['\n', 'c', 'd']] (by decide) (by decide)

/-- Counterexample to C8 as stated: feeding the single fragment `" a "` (no
trailing newline) and flushing emits the untrimmed buffer `" a "`, not the
trimmed buffer content `"a"`. -/
theorem claim8_counterexample :
    runFramer [[' ', 'a', ' ']] = [[' ', 'a', ' ']] ∧
    trimList [' ', 'a', ' '] = ['a'] ∧
    runFramer [[' ', 'a', ' ']] ≠ [trimList [' ', 'a', ' ']] := by decide

/-- C8 (amended): if fragments containing no newline are fed to the Line Framer
and flush is then invoked, the framer emits exactly one final line equal to the
untrimmed buffer content (the concatenation of the fragments), or emits nothing
if the buffer is blank. -/
theorem claim8_flush_untrimmed_buffer (chunks : List (List Char))
    (h : '\n' ∉ chunks.flatten) :
    runFramer chunks =
      if (trimList chunks.flatten).isEmpty then [] else [chunks.flatten] := by
  unfold runFramer
  rw [feedChunks_eq_flatten [] (by simp) chunks]
  unfold transformChunk
  simp only [List.nil_append, splitRN_no_nl h]
  simp [flushBuffer]

/-- Witness for C8: fragments `"a"`, `"b"` with no newline flush to the single
line `"ab"`. -/
theorem claim8_witness : runFramer [['a'], ['b']] = [['a', 'b']] :=
  (claim8_flush_untrimmed_buffer [['a'], ['b']] (by decide)).trans (by decide)

/-- Counterexample to C4 as stated: pushing `1` into the window `[5]` gives the
even-length window `[5, 1]`, sorted `[1, 5]`; the code returns the element at
index `floor(2/2) = 1`, namely `5`, which is the upper median — the lower
median is `1`. -/
theorem claim4_counterexample :
    (filterWithMedian [5] 1).2 = 5 ∧
    List.insertionSort (· ≤ ·) (updatedWindow [5] 1) = [1, 5] ∧
    lowerMedian [1, 5] = 1 ∧
    (filterWithMedian [5] 1).2 ≠
      lowerMedian (List.insertionSort (· ≤ ·) (updatedWindow [5] 1)) := by
  decide

/-- C4 (amended): for every window state and every pushed value, the Weight
Filter's push returns the element at index `floor(length/2)` of the updated
window sorted ascending; for odd window lengths this is the (lower) median,
while for even lengths it is the upper median (index `length/2`), not the
lower one. -/
theorem claim4_sorted_index_median (w : List Int) (x : Int) :
    ∃ s : List Int, s.Perm (updatedWindow w x) ∧ List.Sorted (· ≤ ·) s ∧
      (filterWithMedian w x).2 = s.getD (s.length / 2) 0 ∧
      (s.length % 2 = 1 → (filterWithMedian w x).2 = lowerMedian s) := by
  refine ⟨List.insertionSort (· ≤ ·) (updatedWindow w x),
    List.perm_insertionSort _ _, List.sorted_insertionSort _ _, rfl, ?_⟩
  intro hodd
  unfold filterWithMedian lowerMedian
  simp only
  congr 1
  omega

/-- C5: pushing 5, 1, 3 through the Weight Filter from an empty window returns
the outputs 5, 5, 3 in that order. -/
theorem claim5_push_five_one_three : (pushSequence [] [5, 1, 3]).2 = [5, 5, 3] := by
  decide

/-- Counterexample to C6 as stated: with one recorded timestamp `0`, inserting a
reading at `now = 1000` reports a rate of 1 (only the new timestamp), while the
closed-interval count over `[now-1000, now]` would be 2 — the timestamp exactly
1000 ms old is NOT counted by the code's `now - timestamp < 1000` test. -/
theorem claim6_counterexample :
    (processReading ⟨[], [], [], [0], 0⟩ 1 0 1000).readingsPerSecond = 1 ∧
    closedWindowCount ([0] ++ [1000]) 1000 = 2 ∧
    (processReading ⟨[], [], [], [0], 0⟩ 1 0 1000).readingsPerSecond ≠
      closedWindowCount ([0] ++ [1000]) 1000 := by
  decide

/-- C6 (amended): on every reading insertion, `readingsPerSecond` is recomputed
as the count of all recorded reading timestamps lying within the half-open
interval `(now-1000, now]` (assuming every recorded timestamp is in the past);
a timestamp exactly 1000 ms old at recomputation time is therefore not
counted. -/
theorem claim6_half_open_window (st : PerfState) (w lat now : Int)
    (h : (st.readingsInLastSecond.all fun t => decide (t ≤ now)) = true) :
    (processReading st w lat now).readingsPerSecond =
      ((st.readingsInLastSecond ++ [now]).filter
        (fun t => decide (now - 1000 < t ∧ t ≤ now))).length := by
  unfold processReading updateReadingsPerSecond
  simp only
  congr 1
  apply List.filter_congr
  intro t ht
  rcases List.mem_append.1 ht with h1 | h1
  · have hle : t ≤ now := of_decide_eq_true (List.all_eq_true.1 h t h1)
    rw [decide_eq_decide]
    omega
  · simp only [List.mem_singleton] at h1
    subst h1
    rw [decide_eq_decide]
    omega

/-- Witness for C6 (amended) with timestamps 0 and 500 and a new reading at
time 1000: the reported rate equals the half-open-window count. -/
theorem claim6_witness :
    (([0, 500] : List Int).all fun t => decide (t ≤ (1000 : Int))) = true ∧
    (processReading ⟨[], [], [], [0, 500], 0⟩ 2 0 1000).readingsPerSecond =
      ((([0, 500] : List Int) ++ [1000]).filter
        (fun t => decide ((1000 : Int) - 1000 < t ∧ t ≤ (1000 : Int)))).length :=
  ⟨by decide, claim6_half_open_window ⟨[], [], [], [0, 500], 0⟩ 2 0 1000 (by decide)⟩

/-- C9: after every reading insertion the retained timestamp list is itself
replaced by its filtered form — it contains only timestamps strictly less than
1000 ms old, stale entries are removed from the list (not merely excluded from
the count), and its length is exactly the reported `readingsPerSecond`. -/
theorem claim9_stale_timestamps_purged (st : PerfState) (w lat now : Int) :
    (processReading st w lat now).readingsInLastSecond =
      (st.readingsInLastSecond ++ [now]).filter (fun t => now - t < 1000) ∧
    ((processReading st w lat now).readingsInLastSecond.all
      fun t => decide (now - t < 1000)) = true ∧
    (processReading st w lat now).readingsInLastSecond.length =
      (processReading st w lat now).readingsPerSecond := by
  refine ⟨rfl, ?_, rfl⟩
  rw [List.all_eq_true]
  intro t ht
  have hdef : (processReading st w lat now).readingsInLastSecond =
      (st.readingsInLastSecond ++ [now]).filter (fun t => decide (now - t < 1000)) := rfl
  rw [hdef] at ht
  exact (List.mem_filter.1 ht).2

/-- The latencies stored by `processReading`: the new latency is appended and
the oldest entry dropped past 1000 entries. -/
theorem processReading_latencies (st : PerfState) (w lat now : Int) :
    (processReading st w lat now).latencies =
      if 1000 < (st.latencies ++ [lat]).length then (st.latencies ++ [lat]).tail
      else st.latencies ++ [lat] := rfl

/-- The readings stored by `processReading`: the new reading is appended and
the oldest entry dropped past 1000 entries. -/
theorem processReading_readings (st : PerfState) (w lat now : Int) :
    (processReading st w lat now).readings =
      if 1000 < (st.readings ++
          [(⟨(filterWithMedian st.weightWindow w).2, w, lat, now⟩ : Reading)]).length
      then (st.readings ++
          [(⟨(filterWithMedian st.weightWindow w).2, w, lat, now⟩ : Reading)]).tail
      else st.readings ++
          [(⟨(filterWithMedian st.weightWindow w).2, w, lat, now⟩ : Reading)] := rfl

/-- `processReading` always leaves at least one stored reading. -/
theorem processReading_readings_ne_nil (st : PerfState) (w lat now : Int) :
    (processReading st w lat now).readings ≠ [] := by
  rw [processReading_readings]
  by_cases hlen : 1000 < (st.readings ++
      [(⟨(filterWithMedian st.weightWindow w).2, w, lat, now⟩ : Reading)]).length
  · rw [if_pos hlen]
    intro hnil
    have hl := congrArg List.length hnil
    rw [List.length_tail] at hl
    simp only [List.length_append, List.length_cons, List.length_nil] at hl hlen
    omega
  · rw [if_neg hlen]
    simp

/-- `processReading` always leaves at least one stored latency. -/
theorem processReading_latencies_ne_nil (st : PerfState) (w lat now : Int) :
    (processReading st w lat now).latencies ≠ [] := by
  rw [processReading_latencies]
  by_cases hlen : 1000 < (st.latencies ++ [lat]).length
  · rw [if_pos hlen]
    intro hnil
    have hl := congrArg List.length hnil
    rw [List.length_tail] at hl
    simp only [List.length_append, List.length_cons, List.length_nil] at hl hlen
    omega
  · rw [if_neg hlen]
    simp

/-- Every latency stored along the continuous-read path is 0. -/
theorem runContinuousRead_latency_zero (st : PerfState) (events : List (Int × Int))
    (h : ∀ x ∈ st.latencies, x = 0) :
    ∀ x ∈ (runContinuousRead st events).latencies, x = 0 := by
  induction events generalizing st with
  | nil => exact h
  | cons e es ih =>
    have hstep : ∀ x ∈ (continuousReadStep st e.1 e.2).latencies, x = 0 := by
      intro x hx
      unfold continuousReadStep at hx
      rw [processReading_latencies] at hx
      have hall : ∀ y ∈ st.latencies ++ [(0 : Int)], y = 0 := by
        intro y hy
        rcases List.mem_append.1 hy with h1 | h1
        · exact h y h1
        · simpa using h1
      split at hx
      · exact hall x (List.mem_of_mem_tail hx)
      · exact hall x hx
    exact ih _ hstep

/-- A nonempty continuous run leaves nonempty latency and reading stores. -/
theorem runContinuousRead_ne_nil (st : PerfState) (events : List (Int × Int))
    (h : events ≠ []) :
    (runContinuousRead st events).latencies ≠ [] ∧
    (runContinuousRead st events).readings ≠ [] := by
  induction events generalizing st with
  | nil => exact absurd rfl h
  | cons e es ih =>
    cases es with
    | nil =>
      exact ⟨processReading_latencies_ne_nil st e.1 0 e.2,
        processReading_readings_ne_nil st e.1 0 e.2⟩
    | cons e2 es' =>
      have hstep : runContinuousRead st (e :: e2 :: es') =
          runContinuousRead (continuousReadStep st e.1 e.2) (e2 :: es') := rfl
      rw [hstep]
      exact ih _ (by simp)

/-- A fold of `min` over an all-zero integer list starting at 0 stays 0. -/
theorem foldl_min_zero {xs : List Int} (h : ∀ x ∈ xs, x = 0) :
    xs.foldl min 0 = 0 := by
  induction xs with
  | nil => rfl
  | cons y ys ih =>
    have hy : y = 0 := h y (by simp)
    simp only [List.foldl_cons, hy, min_self]
    exact ih (fun x hx => h x (List.mem_cons_of_mem y hx))

/-- A fold of `max` over an all-zero integer list starting at 0 stays 0. -/
theorem foldl_max_zero {xs : List Int} (h : ∀ x ∈ xs, x = 0) :
    xs.foldl max 0 = 0 := by
  induction xs with
  | nil => rfl
  | cons y ys ih =>
    have hy : y = 0 := h y (by simp)
    simp only [List.foldl_cons, hy, max_self]
    exact ih (fun x hx => h x (List.mem_cons_of_mem y hx))

/-- `Math.min` of a nonempty all-zero list is 0. -/
theorem minSpread_eq_zero {l : List Int} (h : ∀ x ∈ l, x = 0) (hne : l ≠ []) :
    minSpread l = 0 := by
  cases l with
  | nil => exact absurd rfl hne
  | cons x xs =>
    have hx : x = 0 := h x (by simp)
    simp only [minSpread, hx]
    exact foldl_min_zero (fun y hy => h y (List.mem_cons_of_mem x hy))

/-- `Math.max` of a nonempty all-zero list is 0. -/
theorem maxSpread_eq_zero {l : List Int} (h : ∀ x ∈ l, x = 0) (hne : l ≠ []) :
    maxSpread l = 0 := by
  cases l with
  | nil => exact absurd rfl hne
  | cons x xs =>
    have hx : x = 0 := h x (by simp)
    simp only [maxSpread, hx]
    exact foldl_max_zero (fun y hy => h y (List.mem_cons_of_mem x hy))

/-- C10: every reading produced by the continuous-read (`wc`) loop is recorded
with latency exactly 0, so after any nonempty run starting from a cleared
state the derived average, minimum and maximum latency metrics all equal 0. -/
theorem claim10_continuous_latency_zero (st0 : PerfState) (events : List (Int × Int))
    (h0 : st0.latencies = []) (_h1 : st0.readings = []) (hne : events ≠ []) :
    ((runContinuousRead st0 events).latencies.all fun l => decide (l = 0)) = true ∧
    updateMetrics (runContinuousRead st0 events) =
      some ⟨0, 0, 0, (runContinuousRead st0 events).readings.length⟩ := by
  have hinv : ∀ x ∈ (runContinuousRead st0 events).latencies, x = 0 :=
    runContinuousRead_latency_zero st0 events (by rw [h0]; intro x hx; simp at hx)
  have hnn := runContinuousRead_ne_nil st0 events hne
  constructor
  · rw [List.all_eq_true]
    intro t ht
    exact decide_eq_true (hinv t ht)
  · unfold updateMetrics
    rw [if_neg (by simpa [List.length_eq_zero] using hnn.2)]
    have hs : (runContinuousRead st0 events).latencies.sum = 0 := List.sum_eq_zero hinv
    simp [MetricVals.mk.injEq, hs, minSpread_eq_zero hinv hnn.1,
      maxSpread_eq_zero hinv hnn.1]

/-- Witness for C10: a single continuous-mode reading of weight 7 at time 100
from a cleared state gives all-zero latency metrics. -/
theorem claim10_witness :
    ((runContinuousRead ⟨[], [], [], [], 0⟩ [(7, 100)]).latencies.all
      fun l => decide (l = 0)) = true ∧
    updateMetrics (runContinuousRead ⟨[], [], [], [], 0⟩ [(7, 100)]) =
      some ⟨0, 0, 0, (runContinuousRead ⟨[], [], [], [], 0⟩ [(7, 100)]).readings.length⟩ :=
  claim10_continuous_latency_zero ⟨[], [], [], [], 0⟩ [(7, 100)] rfl rfl (by decide)

/-- Counterexample to C2 as stated: starting Connected with no device info, if
`id` returns `"ID1"` and `slc` then fails, the channel stays Connected, but the
device-ID field no longer holds `"ID1"` (the catch overwrites it with the
`'Error'` sentinel) and the capacity field holds no sentinel — it is still
unset. -/
theorem claim2_counterexample :
    (getDeviceInfo ⟨true, none, none, none⟩ (.ok "ID1") (.error ())
      (.ok "kg")).isConnected = true ∧
    (getDeviceInfo ⟨true, none, none, none⟩ (.ok "ID1") (.error ())
      (.ok "kg")).deviceId ≠ some "ID1" ∧
    (getDeviceInfo ⟨true, none, none, none⟩ (.ok "ID1") (.error ())
      (.ok "kg")).deviceCapacity = none ∧
    (getDeviceInfo ⟨true, none, none, none⟩ (.ok "ID1") (.error ())
      (.ok "kg")).deviceCapacity ≠ some "Error" := by
  decide

/-- C2 (amended): if `id` succeeds and `slc` then fails during the device-info
handshake, the channel ends with `isConnected` still true (never rolled back),
but the device-ID field is overwritten with the error sentinel `"Error"` (the
value returned by `id` is discarded) and the capacity field remains unset. -/
theorem claim2_handshake_partial (st : DeviceInfoState) (idV : String) (e : Unit)
    (unitsR : Except Unit String) (hconn : st.isConnected = true)
    (hcap : st.deviceCapacity = none) :
    (getDeviceInfo st (.ok idV) (.error e) unitsR).isConnected = true ∧
    (getDeviceInfo st (.ok idV) (.error e) unitsR).deviceId = some "Error" ∧
    (getDeviceInfo st (.ok idV) (.error e) unitsR).deviceCapacity = none := by
  refine ⟨?_, rfl, ?_⟩ <;> simp [getDeviceInfo, hconn, hcap]

/-- Witness for C2 (amended) at a concrete Connected channel. -/
theorem claim2_witness :
    (getDeviceInfo ⟨true, none, none, none⟩ (.ok "S123") (.error ())
      (.ok "kg")).isConnected = true ∧
    (getDeviceInfo ⟨true, none, none, none⟩ (.ok "S123") (.error ())
      (.ok "kg")).deviceId = some "Error" ∧
    (getDeviceInfo ⟨true, none, none, none⟩ (.ok "S123") (.error ())
      (.ok "kg")).deviceCapacity = none :=
  claim2_handshake_partial ⟨true, none, none, none⟩ "S123" () (.ok "kg") rfl rfl

/-- Counterexample to C3 as stated: when the line-reader `cancel()` throws, the
single catch ends `disconnect` — the writer release and port close are never
attempted, the channel remains Connected and the device-identity fields are not
cleared. -/
theorem claim3_counterexample :
    (disconnect ⟨true, true, true, true, true, some "X", some "C", some "U"⟩
      (.error ()) (.ok ()) (.ok ()) (.ok ())).isConnected = true ∧
    (disconnect ⟨true, true, true, true, true, some "X", some "C", some "U"⟩
      (.error ()) (.ok ()) (.ok ()) (.ok ())).hasWriter = true ∧
    (disconnect ⟨true, true, true, true, true, some "X", some "C", some "U"⟩
      (.error ()) (.ok ()) (.ok ()) (.ok ())).hasPort = true ∧
    (disconnect ⟨true, true, true, true, true, some "X", some "C", some "U"⟩
      (.error ()) (.ok ()) (.ok ()) (.ok ())).deviceId = some "X" := by
  decide

/-- C3 (amended): on a channel holding all three handles, `disconnect` releases
the line reader (cancel then release), then the writer, then closes the
transport, in that order, but inside one shared guard: when every step succeeds
the channel ends Disconnected with all handles released and device-identity
cleared, while a failure thrown by any one of the four awaits — the reader
cancel, the reader releaseLock, the writer releaseLock or the port close —
aborts the rest of the sequence: the steps after the throw are not attempted,
the handles released before the throw stay released, and the channel keeps its
connection state and device-identity fields. -/
theorem claim3_single_guard (st0 : ConnState) (ra rb rc : Except Unit Unit)
    (h1 : st0.hasLineReader = true) (h2 : st0.hasWriter = true)
    (h3 : st0.hasPort = true) :
    disconnect st0 (.ok ()) (.ok ()) (.ok ()) (.ok ()) =
      { st0 with isReading := false, isConnected := false, hasLineReader := false,
                 hasWriter := false, hasPort := false, deviceId := none,
                 deviceCapacity := none, deviceUnits := none } ∧
    disconnect st0 (.error ()) ra rb rc = { st0 with isReading := false } ∧
    disconnect st0 (.ok ()) (.error ()) rb rc = { st0 with isReading := false } ∧
    disconnect st0 (.ok ()) (.ok ()) (.error ()) rc =
      { st0 with isReading := false, hasLineReader := false } ∧
    disconnect st0 (.ok ()) (.ok ()) (.ok ()) (.error ()) =
      { st0 with isReading := false, hasLineReader := false, hasWriter := false } := by
  obtain ⟨ir, ic, hl, hw, hp, d1, d2, d3⟩ := st0
  simp only at h1 h2 h3
  subst h1
  subst h2
  subst h3
  refine ⟨?_, ?_, ?_, ?_, ?_⟩ <;> cases ir <;>
    simp [disconnect, releaseLineReaderStep, releaseWriterStep, closePortStep,
      clearAfterClose, Bind.bind, Except.bind, Pure.pure, Except.pure]

/-- Witness for C3 (amended) at a concrete fully-connected channel: the
all-success run and a failure at each of the four awaits. -/
theorem claim3_witness :
    disconnect ⟨true, true, true, true, true, some "X", some "C", some "U"⟩
      (.ok ()) (.ok ()) (.ok ()) (.ok ()) =
      ⟨false, false, false, false, false, none, none, none⟩ ∧
    disconnect ⟨true, true, true, true, true, some "X", some "C", some "U"⟩
      (.error ()) (.ok ()) (.ok ()) (.ok ()) =
      ⟨false, true, true, true, true, some "X", some "C", some "U"⟩ ∧
    disconnect ⟨true, true, true, true, true, some "X", some "C", some "U"⟩
      (.ok ()) (.error ()) (.ok ()) (.ok ()) =
      ⟨false, true, true, true, true, some "X", some "C", some "U"⟩ ∧
    disconnect ⟨true, true, true, true, true, some "X", some "C", some "U"⟩
      (.ok ()) (.ok ()) (.error ()) (.ok ()) =
      ⟨false, true, false, true, true, some "X", some "C", some "U"⟩ ∧
    disconnect ⟨true, true, true, true, true, some "X", some "C", some "U"⟩
      (.ok ()) (.ok ()) (.ok ()) (.error ()) =
      ⟨false, true, false, false, true, some "X", some "C", some "U"⟩ :=
  claim3_single_guard ⟨true, true, true, true, true, some "X", some "C", some "U"⟩
    (.ok ()) (.ok ()) (.ok ()) rfl rfl rfl

/-- Counterexample to C7 as stated: with the line stream about to deliver
`"L1"` then `"L2"`, `stopReading` consumes `"L1"` as the response to the empty
stop command — a response line IS awaited and consumed, because `isReading` was
already cleared before `sendCommand('')` ran, so the no-read branch of
`sendCommand` is not taken. -/
theorem claim7_counterexample :
    (stopReading ⟨true, ReadMethod.onread, true, true, ["L1", "L2"], []⟩).pending
      = ["L2"] ∧
    (["L2"] : List String) ≠ ["L1", "L2"] := by
  decide

/-- C7 (amended): when `stopReading` sends the best-effort empty stop command,
it clears the continuation flag first and then goes through the ordinary
command path, so exactly one response line is awaited and consumed from the
line stream for that command, and the single carriage return is written. -/
theorem claim7_stop_consumes_line (st : CommandState) (l : String) (rest : List String)
    (hm : st.currentMethod = ReadMethod.onread) (hw : st.hasWriter = true)
    (hr : st.hasLineReader = true) (hp : st.pending = l :: rest) :
    (stopReading st).isReading = false ∧
    (stopReading st).pending = rest ∧
    (stopReading st).written = st.written ++ ["\r"] := by
  unfold stopReading sendCommand readResponse
  simp [hm, hw, hr, hp]

/-- Witness for C7 (amended): stopping with one pending line consumes it. -/
theorem claim7_witness :
    (stopReading ⟨false, ReadMethod.onread, true, true, ["R1"], ["w\r"]⟩).isReading
      = false ∧
    (stopReading ⟨false, ReadMethod.onread, true, true, ["R1"], ["w\r"]⟩).pending
      = [] ∧
    (stopReading ⟨false, ReadMethod.onread, true, true, ["R1"], ["w\r"]⟩).written
      = ["w\r"] ++ ["\r"] :=
  claim7_stop_consumes_line ⟨false, ReadMethod.onread, true, true, ["R1"], ["w\r"]⟩
    "R1" [] rfl rfl rfl rfl
